import Mathlib

/-!
Shallow embedding of the EvalLLMforJava evaluation pipeline.

The repository is a Python research pipeline that asks LLMs for Java
performance patches, applies them to git checkouts, runs builds/tests with a
bounded self-repair loop, and aggregates JMH benchmark results into normalized
scores and statistics.  This file embeds the pure logic of:

* `apply_llm_changes.py` (`normalize_code`, `extract_diff_json`, `apply_diff`),
* `run_pipeline.py` (`improve_code_with_llm` and the per-prompt repair loop),
* `run_unit_test.py` (`run_unit_test` outcome classification),
* `Analysis/preprocessing/normalize_score.py` (`print_results`),
* `Analysis/preprocessing/final_score.py`
  (`calculate_representative_benchmark_scores`),
* `Analysis/RQ1/wilcoxon_a12.py` (`vargha_delaney_a12`, `analyze_median_scores`).

External effects (LLM calls, subprocesses, the file system) are passed in as
explicit parameters or modelled by small explicit functions; floating point
numbers are modelled by rationals.
-/

namespace EvalLLM

/-! ### Python string primitives used by `apply_llm_changes.py` -/

/-- ASCII whitespace characters removed by Python `str.strip()`. -/
def isPyWs (c : Char) : Bool :=
  [' ', '\t', '\n', '\r', '\x0b', '\x0c'].contains c

/-- Python `str.strip()` on a character list. -/
def pyStripL (cs : List Char) : List Char :=
  ((cs.dropWhile isPyWs).reverse.dropWhile isPyWs).reverse

/-- Python `str.strip()`. -/
def pyStrip (s : String) : String := String.mk (pyStripL s.data)

/-- Python `str.splitlines()`, modelling the line terminators `\n`, `\r`
and `\r\n` (the terminators occurring in this pipeline's data). -/
def pySplitlinesL (acc : List Char) : List Char → List (List Char)
  | [] => if acc.isEmpty then [] else [acc.reverse]
  | '\r' :: '\n' :: rest => acc.reverse :: pySplitlinesL [] rest
  | '\r' :: rest => acc.reverse :: pySplitlinesL [] rest
  | '\n' :: rest => acc.reverse :: pySplitlinesL [] rest
  | c :: rest => pySplitlinesL (c :: acc) rest

/-- Model of `normalize_code` from `apply_llm_changes.py`: strip the whole string,
strip each line, drop empty lines, re-join with `\n`. -/
def normalize_code (code : String) : String :=
  let lines := (pySplitlinesL [] (pyStripL code.data)).map pyStripL
  String.mk (List.intercalate ['\n'] (lines.filter (fun l => !l.isEmpty)))

/-- Boolean list-of-characters starts-with test. -/
def isPrefixB : List Char → List Char → Bool
  | [], _ => true
  | x :: xs, y :: ys => x == y && isPrefixB xs ys
  | _ :: _, [] => false

/-- Boolean substring test on character lists. -/
def containsSub : List Char → List Char → Bool
  | pat, [] => pat.isEmpty
  | pat, h :: t => isPrefixB pat (h :: t) || containsSub pat t

/-- Python `needle in hay` on strings (substring containment). -/
def pyIn (needle hay : String) : Bool := containsSub needle.data hay.data

/-- Scanner for Python `str.replace` with a non-empty pattern, replacing every
non-overlapping occurrence left to right.  A non-empty pattern makes every
step consume at least one character, so running it with the input length as
fuel never exhausts the fuel and the fuel-out branch is unreachable. -/
def pyReplaceGo (pat rep : List Char) : Nat → List Char → List Char
  | 0, s => s
  | _ + 1, [] => []
  | fuel + 1, c :: t =>
    if isPrefixB pat (c :: t) then
      rep ++ pyReplaceGo pat rep fuel ((c :: t).drop pat.length)
    else
      c :: pyReplaceGo pat rep fuel t

/-- Python `str.replace(pat, rep)` on character lists.  An empty pattern
inserts the replacement before every character and at the end, as Python does. -/
def pyReplaceL (s pat rep : List Char) : List Char :=
  if pat.isEmpty then rep ++ List.foldr (fun c acc => c :: (rep ++ acc)) [] s
  else pyReplaceGo pat rep s.length s

/-- Python `content.replace(search, replace)` on strings. -/
def pyReplace (s pat rep : String) : String := String.mk (pyReplaceL s.data pat.data rep.data)

/-! ### `apply_diff` from `apply_llm_changes.py` -/

/-- A search/replace edit block, the element format `extract_diff_json` validates. -/
structure DiffBlock where
  filepath : String
  search : String
  replace : String
deriving DecidableEq, Repr

/-- The checked-out repository, as a map from file path to file content.
`apply_diff` first resets the checkout with `git reset --hard`; the file-system
argument below is that post-reset state. -/
def lookupFile : List (String × String) → String → Option String
  | [], _ => none
  | (p, c) :: rest, path => if p == path then some c else lookupFile rest path

/-- Writing a file (Python `open(path, "w")` then `write`). -/
def writeFile : List (String × String) → String → String → List (String × String)
  | [], path, content => [(path, content)]
  | (p, c) :: rest, path, content =>
    if p == path then (p, content) :: rest else (p, c) :: writeFile rest path content

/-- One iteration of the block loop in `apply_diff`: read the file, test the
whitespace-normalized search text, rewrite the file with Python `str.replace`,
or return the format-error string.  A failing `open` raises `IOError`, which the
`except` clause in the source swallows, leaving the file system unchanged. -/
def applyBlock (fs : List (String × String)) (b : DiffBlock) :
    Except String (List (String × String)) :=
  match lookupFile fs b.filepath with
  | none => .ok fs
  | some content =>
    if pyIn (normalize_code b.search) (normalize_code content) then
      .ok (writeFile fs b.filepath (pyReplace content b.search b.replace))
    else
      .error ("[Format Error] Following search block not found in " ++ b.filepath
        ++ "\n : " ++ b.search)

/-- The block loop of `apply_diff`, short-circuiting on the first missing
search block. -/
def applyBlocks (fs : List (String × String)) :
    List DiffBlock → Except String (List (String × String))
  | [] => .ok fs
  | b :: rest =>
    match applyBlock fs b with
    | .ok fs2 => applyBlocks fs2 rest
    | .error e => .error e

/-- A line with every whitespace character removed: `git diff -w` compares
lines after ignoring all whitespace within them. -/
def wLine (cs : List Char) : List Char := cs.filter (fun c => !isPyWs c)

/-- File content as `git diff -w` compares it. -/
def wNorm (s : String) : List (List Char) := (pySplitlinesL [] s.data).map wLine

/-- Model of the output of the subprocess `git diff -w` between two states of
the checkout: empty exactly when every file is unchanged up to whitespace,
otherwise one non-empty header line per changed file. -/
def gitDiffW (oldFs newFs : List (String × String)) : String :=
  let changed := newFs.filter (fun pc =>
    match lookupFile oldFs pc.1 with
    | some oldC => decide (wNorm oldC ≠ wNorm pc.2)
    | none => true)
  String.intercalate "\n" (changed.map (fun pc => "diff --git a/" ++ pc.1 ++ " b/" ++ pc.1))

/-- Model of `apply_diff` after block extraction: apply the blocks, then return the
`git diff -w` output, or `"[Format Error] No code changes detected."` when
that diff strips to the empty string. -/
def applyDiff (fs : List (String × String)) (blocks : List DiffBlock) : String :=
  match applyBlocks fs blocks with
  | .error e => e
  | .ok fs2 =>
    let d := gitDiffW fs fs2
    if pyStrip d == "" then "[Format Error] No code changes detected." else d

/-! ### `extract_diff_json` from `apply_llm_changes.py`

The LLM log is scanned with the regular expression
`&#96;&#96;&#96;json\s*(.*?)\s*&#96;&#96;&#96;` (DOTALL), the captured text is
fed to `json.loads`, and the resulting value is iterated over, validating that
every element contains the keys `filepath`, `search` and `replace`.  The JSON
values and Python's dynamic `in`/iteration semantics are modelled explicitly;
`json.loads` is modelled by a recursive-descent parser over the grammar the
Python decoder accepts (RFC 8259 plus the `NaN`/`Infinity` constants).
A parsed number is kept exactly as mantissa times a power of ten; Python's
conversion to `int` or `float` (rounding, overflow to infinity) is not
modelled, and does not affect which branch `extract_diff_json` takes, since
every number is equally non-iterable and non-container. -/

/-- Parsed JSON values.  A number literal is stored as
`mantissa * 10 ^ exponent`; `inf` and `nan` are the non-standard constants
`Infinity`, `-Infinity` and `NaN` that Python's decoder accepts. -/
inductive JVal where
  | null
  | bool (b : Bool)
  | num (mantissa exponent : Int)
  | str (s : String)
  | arr (elems : List JVal)
  | obj (fields : List (String × JVal))
  | inf (neg : Bool)
  | nan

mutual

/-- Structural equality on JSON values (Python `==` on parsed values).
Number literals compare by their stored mantissa/exponent (the decoder is
deterministic, and `extract_diff_json` only ever compares values against
strings); `nan` is unequal to everything, itself included, as the float NaN
is in Python. -/
def jsonBeq : JVal → JVal → Bool
  | .null, .null => true
  | .bool a, .bool b => a == b
  | .num a b, .num c d => a == c && b == d
  | .str a, .str b => a == b
  | .arr as, .arr bs => jsonBeqList as bs
  | .obj as, .obj bs => jsonBeqFields as bs
  | .inf a, .inf b => a == b
  | _, _ => false

/-- Elementwise equality of JSON arrays. -/
def jsonBeqList : List JVal → List JVal → Bool
  | u :: us, w :: ws => jsonBeq u w && jsonBeqList us ws
  | [], [] => true
  | _, _ => false

/-- Pairwise equality of JSON object fields. -/
def jsonBeqFields : List (String × JVal) → List (String × JVal) → Bool
  | (k1, v1) :: us, (k2, v2) :: ws => k1 == k2 && jsonBeq v1 v2 && jsonBeqFields us ws
  | [], [] => true
  | _, _ => false

end

instance : BEq JVal := ⟨jsonBeq⟩

/-- JSON insignificant whitespace. -/
def isJsonWs (c : Char) : Bool := [' ', '\t', '\n', '\r'].contains c

/-- Skip insignificant whitespace. -/
def skipWs (cs : List Char) : List Char := cs.dropWhile isJsonWs

/-- Decoding of a JSON escape sequence character, as a lookup table from the
character after the backslash to the decoded character. -/
def escChar (c : Char) : Option Char :=
  List.lookup c
    [('"', '"'), ('\\', '\\'), ('/', '/'), ('n', '\n'), ('t', '\t'),
     ('r', '\r'), ('b', '\x08'), ('f', '\x0c')]

/-- Value of a hexadecimal digit. -/
def hexDigitVal (c : Char) : Option Nat :=
  if c.isDigit then some (c.toNat - 48)
  else if 'a' ≤ c ∧ c ≤ 'f' then some (c.toNat - 87)
  else if 'A' ≤ c ∧ c ≤ 'F' then some (c.toNat - 55)
  else none

/-- Parse the body of a JSON string (the opening quote already consumed),
returning the decoded characters and the remaining input.  As in strict-mode
`json.loads`: the short escapes and `\uXXXX` are decoded, an unknown escape
fails, and a raw control character (code below 32) fails.  A `\uXXXX` escape
becomes the character with that code; recombination of surrogate pairs, which
affects only characters outside the basic plane, is not modelled. -/
def parseStrChars : List Char → Option (List Char × List Char)
  | [] => none
  | '"' :: rest => some ([], rest)
  | '\\' :: 'u' :: h1 :: h2 :: h3 :: h4 :: rest =>
    match hexDigitVal h1, hexDigitVal h2, hexDigitVal h3, hexDigitVal h4 with
    | some a, some b, some c, some d =>
      (parseStrChars rest).map (fun p =>
        (Char.ofNat (((a * 16 + b) * 16 + c) * 16 + d) :: p.1, p.2))
    | _, _, _, _ => none
  | '\\' :: e :: rest =>
    match escChar e with
    | some c => (parseStrChars rest).map (fun p => (c :: p.1, p.2))
    | none => none
  | c :: rest =>
    if c.toNat < 32 then none
    else (parseStrChars rest).map (fun p => (c :: p.1, p.2))

/-- Digits of a decimal literal as a natural number. -/
def digitsToNat (ds : List Char) : Nat :=
  ds.foldl (fun a c => a * 10 + (c.toNat - 48)) 0

/-- Parse a JSON number literal per the decoder's grammar: an optional minus,
an integer part that is `0` or starts with a nonzero digit, an optional
fraction with at least one digit, an optional exponent with at least one
digit.  A literal with a leading zero such as `05` matches only its `0`, so
the surrounding grammar then rejects the input, exactly as Python's scanner
does.  The value is returned exactly, as mantissa and power-of-ten exponent. -/
def parseNumber (cs : List Char) : Option (JVal × List Char) :=
  let (neg, cs1) : Bool × List Char :=
    match cs with
    | '-' :: t => (true, t)
    | _ => (false, cs)
  match cs1 with
  | [] => none
  | c :: t =>
    if !c.isDigit then none
    else
      let (intDigits, rest1) : List Char × List Char :=
        if c = '0' then ([c], t)
        else ((c :: t).takeWhile Char.isDigit, (c :: t).dropWhile Char.isDigit)
      let fracStep : Option (List Char × List Char) :=
        match rest1 with
        | '.' :: t2 =>
          let ds := t2.takeWhile Char.isDigit
          if ds.isEmpty then none else some (ds, t2.dropWhile Char.isDigit)
        | _ => some ([], rest1)
      match fracStep with
      | none => none
      | some (fracDigits, rest2) =>
        let expStep : Option (Int × List Char) :=
          match rest2 with
          | e :: t3 =>
            if e = 'e' ∨ e = 'E' then
              let (esign, t4) : Int × List Char :=
                match t3 with
                | '+' :: t5 => (1, t5)
                | '-' :: t5 => (-1, t5)
                | _ => (1, t3)
              let ds := t4.takeWhile Char.isDigit
              if ds.isEmpty then none
              else some (esign * (digitsToNat ds : Int), t4.dropWhile Char.isDigit)
            else some (0, rest2)
          | [] => some (0, rest2)
        match expStep with
        | none => none
        | some (ex, rest3) =>
          let mag : Int := (digitsToNat (intDigits ++ fracDigits) : Int)
          some (.num (if neg then -mag else mag) (ex - fracDigits.length), rest3)

/-- The literal tokens `true`, `false`, `null` and the non-standard constants
`NaN` and `Infinity` that Python's decoder also accepts. -/
def keywordTok (cs : List Char) : Option (JVal × List Char) :=
  if isPrefixB ("true").data cs then some (.bool true, cs.drop 4)
  else if isPrefixB ("false").data cs then some (.bool false, cs.drop 5)
  else if isPrefixB ("null").data cs then some (.null, cs.drop 4)
  else if isPrefixB ("NaN").data cs then some (.nan, cs.drop 3)
  else if isPrefixB ("Infinity").data cs then some (.inf false, cs.drop 8)
  else none

mutual

/-- Recursive-descent parser for a JSON value (model of `json.loads`). -/
def parseVal : Nat → List Char → Option (JVal × List Char)
  | 0, _ => none
  | fuel + 1, cs =>
    match skipWs cs with
    | [] => none
    | '{' :: rest =>
      match skipWs rest with
      | '}' :: cs2 => some (.obj [], cs2)
      | _ => parseObjRest fuel [] rest
    | '[' :: rest =>
      match skipWs rest with
      | ']' :: cs2 => some (.arr [], cs2)
      | _ => parseArrRest fuel [] rest
    | '"' :: rest => (parseStrChars rest).map (fun p => (.str (String.mk p.1), p.2))
    | c :: rest =>
      if c = '-' && isPrefixB ("Infinity").data rest then some (.inf true, rest.drop 8)
      else if c = '-' || c.isDigit then parseNumber (c :: rest)
      else keywordTok (c :: rest)

/-- Parse the remaining comma-separated elements of a non-empty JSON array. -/
def parseArrRest : Nat → List JVal → List Char → Option (JVal × List Char)
  | 0, _, _ => none
  | fuel + 1, acc, cs =>
    match parseVal fuel cs with
    | none => none
    | some (v, cs2) =>
      match skipWs cs2 with
      | ',' :: cs3 => parseArrRest fuel (v :: acc) cs3
      | ']' :: cs3 => some (.arr (v :: acc).reverse, cs3)
      | _ => none

/-- Parse the remaining key/value pairs of a non-empty JSON object. -/
def parseObjRest : Nat → List (String × JVal) → List Char → Option (JVal × List Char)
  | 0, _, _ => none
  | fuel + 1, acc, cs =>
    match skipWs cs with
    | '"' :: cs1 =>
      match parseStrChars cs1 with
      | none => none
      | some (key, cs2) =>
        match skipWs cs2 with
        | ':' :: cs3 =>
          match parseVal fuel cs3 with
          | none => none
          | some (v, cs4) =>
            match skipWs cs4 with
            | ',' :: cs5 => parseObjRest fuel ((String.mk key, v) :: acc) cs5
            | '}' :: cs5 => some (.obj ((String.mk key, v) :: acc).reverse, cs5)
            | _ => none
        | _ => none
    | _ => none

end

/-- Model of `json.loads`: parse one JSON value and require that only
whitespace remains. -/
def jsonParse (s : String) : Option JVal :=
  match parseVal (2 * s.data.length + 2) s.data with
  | some (v, rest) => if (skipWs rest).isEmpty then some v else none
  | none => none

/-- Suffix of the input after the first occurrence of `pat`, if any. -/
def splitOnceAfter (pat : List Char) : List Char → Option (List Char)
  | [] => if pat.isEmpty then some [] else none
  | h :: t =>
    if isPrefixB pat (h :: t) then some ((h :: t).drop pat.length)
    else splitOnceAfter pat t

/-- Characters of the input before the first occurrence of `pat`, if any. -/
def takeUntil (pat : List Char) : List Char → Option (List Char)
  | [] => if pat.isEmpty then some [] else none
  | h :: t =>
    if isPrefixB pat (h :: t) then some []
    else (takeUntil pat t).map (h :: ·)

/-- The text captured by the fenced-block regular expression: everything
between the first occurrence of the json code-fence opener and the next
code fence, with surrounding whitespace stripped (the `\s*` groups). -/
def fenceContent (cs : List Char) : Option (List Char) :=
  (splitOnceAfter ("```json").data cs).bind fun rest =>
    (takeUntil ("```").data rest).map pyStripL

/-- Python `key in value` on a parsed JSON value: key lookup on objects,
membership on arrays, substring test on strings; `TypeError` (modelled as
`none`) on numbers, booleans and `null`. -/
def pyKeyIn (k : String) : JVal → Option Bool
  | .obj fields => some (fields.any (fun f => f.1 == k))
  | .arr elems => some (elems.any (fun e => e == JVal.str k))
  | .str s => some (pyIn k s)
  | _ => none

/-- Python iteration over a parsed JSON value: elements of arrays, keys of
objects, one-character strings of strings; `TypeError` (`none`) otherwise. -/
def pyIterate : JVal → Option (List JVal)
  | .arr elems => some elems
  | .obj fields => some (fields.map (fun f => JVal.str f.1))
  | .str s => some (s.data.map (fun c => JVal.str (String.mk [c])))
  | _ => none

mutual

/-- Python rendering of a value inside an f-string (used in the invalid-block
error message).  Numbers render their exact stored decimal; Python's
`int`/`float` formatting is not replicated, which affects only the text after
the `[Format Error]` marker. -/
def renderJson : JVal → String
  | .null => "None"
  | .bool true => "True"
  | .bool false => "False"
  | .num m e => if e = 0 then toString m else toString m ++ "e" ++ toString e
  | .str s => "\x27" ++ s ++ "\x27"
  | .arr elems => "[" ++ renderJsonList elems ++ "]"
  | .obj fields => "\x7b" ++ renderJsonFields fields ++ "\x7d"
  | .inf true => "-inf"
  | .inf false => "inf"
  | .nan => "nan"

/-- Comma-separated rendering of JSON array elements. -/
def renderJsonList : List JVal → String
  | [] => ""
  | [e] => renderJson e
  | e :: rest => renderJson e ++ ", " ++ renderJsonList rest

/-- Comma-separated rendering of JSON object fields. -/
def renderJsonFields : List (String × JVal) → String
  | [] => ""
  | [(k, v)] => "\x27" ++ k ++ "\x27: " ++ renderJson v
  | (k, v) :: rest => "\x27" ++ k ++ "\x27: " ++ renderJson v ++ ", " ++ renderJsonFields rest

end

/-- Outcome of `extract_diff_json`: the validated block list, a format-error
string, or an uncaught Python exception. -/
inductive ExtractResult where
  | blocks (bs : List JVal)
  | fmtError (msg : String)
  | raised

/-- The short-circuit generator
`all(key in block for key in ['filepath', 'search', 'replace'])`:
`none` when an `in` test raises `TypeError` (non-container element),
`some false` at the first missing key, `some true` when all three keys are
present. -/
def checkKeys (b : JVal) : Option Bool :=
  match pyKeyIn "filepath" b with
  | none => none
  | some false => some false
  | some true =>
    match pyKeyIn "search" b with
    | none => none
    | some false => some false
    | some true => pyKeyIn "replace" b

/-- The validation loop of `extract_diff_json`: each element must contain the
keys `filepath`, `search` and `replace`; a `TypeError` from `in` on a
non-container element escapes uncaught, and the first element with a missing
key aborts with a format-error string naming it. -/
def validateBlocks : List JVal → ExtractResult
  | [] => .blocks []
  | b :: rest =>
    match checkKeys b with
    | none => .raised
    | some false =>
      .fmtError ("[Format Error] Following block is invalid: \n " ++ renderJson b)
    | some true =>
      match validateBlocks rest with
      | .blocks bs => .blocks (b :: bs)
      | e => e

/-- Model of `extract_diff_json` from `apply_llm_changes.py`: find the first fenced
json block, parse it with `json.loads`, and validate the elements of the
resulting value. -/
def extract_diff_json (llm_log : String) : ExtractResult :=
  match fenceContent llm_log.data with
  | none => .fmtError "[Format Error] No valid JSON array found."
  | some content =>
    match jsonParse (String.mk content) with
    | none => .fmtError "[Format Error] Invalid JSON format."
    | some v =>
      match pyIterate v with
      | none => .raised
      | some items => validateBlocks items

/-! ### `improve_code_with_llm` and the per-prompt retry loop (`run_pipeline.py`)

The LLM is modelled by a function `llm : Nat → String → String` giving the
output of the k-th LLM call for a given prompt; `apply_diff` resets the
checkout with `git reset --hard` before applying blocks, so its result is a
function `applyRes : String → String` of the LLM log alone; likewise the
build/test outcome after applying the patch from a log is `test : String →
String`. -/

/-- Result of `improve_code_with_llm`: the returned triple, plus the number of
LLM calls made and the prompt passed to each call. -/
structure ImproveResult where
  status : String
  llm_log : String
  diff_patch : String
  calls : Nat
  promptsUsed : List String

/-- The self-repair prompt built inside `improve_code_with_llm` after a
format error. -/
def repairPromptFmt (diff_patch llm_log prompt_content : String) : String :=
  "\n            >>>> The format of your generated code changes does not meet my requirements, with the following error:\n            "
    ++ diff_patch
    ++ "\n            >>>> Your previous output is:\n            "
    ++ llm_log
    ++ "\n            >>>> Analyze the error. If the search block was not found, try to provide a more flexible search pattern or break down the changes into smaller chunks.\n            Make sure to maintain the same JSON format with filepath, search, and replace fields.\n            >>>> Original prompt was:\n            "
    ++ prompt_content
    ++ "\n            "

/-- The while-loop of `improve_code_with_llm`: `remaining` iterations left
(`max_iterations - iteration`), `made` LLM calls made so far in this
invocation, `base` LLM calls made before it. -/
def improveGo (llm : Nat → String → String) (applyRes : String → String)
    (prompt_content : String) (base : Nat) :
    Nat → Nat → String → String → String → ImproveResult
  | 0, made, _, lastLog, lastPatch =>
    if pyIn "[Format Error]" lastPatch then ⟨"Failed", lastLog, lastPatch, made, []⟩
    else ⟨"Success", lastLog, lastPatch, made, []⟩
  | r + 1, made, feedback, _, _ =>
    let log := llm (base + made) feedback
    let patch := applyRes log
    if !(pyIn "[Format Error]" patch) then
      ⟨"Success", log, patch, made + 1, [feedback]⟩
    else
      let fb2 := repairPromptFmt patch log prompt_content
      let res := improveGo llm applyRes prompt_content base r (made + 1) fb2 log patch
      { res with promptsUsed := feedback :: res.promptsUsed }

/-- Model of `improve_code_with_llm` from `run_pipeline.py` (`max_iterations = 2`). -/
def improve_code_with_llm (llm : Nat → String → String) (applyRes : String → String)
    (prompt_content : String) (base : Nat) : ImproveResult :=
  improveGo llm applyRes prompt_content base 2 0 prompt_content "" ""

/-- Outcome of processing one prompt file in `main`. -/
structure PromptOutcome where
  status : String
  iterations : Nat
  llmCalls : Nat

/-- The build/test failure feedback prompt built in `main`. -/
def buildRepairFmt (failed_prompt build_test_log prompt_content llm_log : String) : String :=
  "\n                    The previous code changes you generated did not pass. Please fix the code.\n                    >>>> "
    ++ failed_prompt
    ++ ". Error log:\n                    "
    ++ build_test_log
    ++ "\n                    >>>> Original prompt was:\n                    "
    ++ prompt_content
    ++ "\n                    >>>> Your previous output is:\n                    "
    ++ llm_log
    ++ "\n                    >>>> Please fix the code.\n                    "

/-- The per-prompt retry while-loop of `main` (`max_iterations = 3`):
`remaining` iterations left, `iter` iterations executed, `calls` LLM calls
made.  `failedPrompt` models the Python variable `failed_prompt`, which keeps
its previous value when the test log carries none of the three tags (with
`run_unit_test` as the test runner that case is unreachable). -/
def mainGo (llm : Nat → String → String) (applyRes : String → String)
    (test : String → String) (prompt_content : String) :
    Nat → Nat → Nat → String → String → String → PromptOutcome
  | 0, iter, calls, _, _, btl =>
    ⟨if pyIn "[TEST PASSED]" btl then "pass" else "fail", iter, calls⟩
  | r + 1, iter, calls, feedback, failedPrompt, _ =>
    let res := improve_code_with_llm llm applyRes feedback calls
    let calls2 := calls + res.calls
    if res.status == "Failed" then
      mainGo llm applyRes test prompt_content r (iter + 1) calls2 feedback failedPrompt
        "[APPLIED FAILED] Not all generated code changes successfully applied!"
    else
      let btl := test res.llm_log
      if pyIn "[TEST PASSED]" btl then ⟨"pass", iter + 1, calls2⟩
      else
        let fp :=
          if pyIn "[BUILD FAILED]" btl then "Build failed"
          else if pyIn "[TEST FAILED]" btl then "The unit test failed"
          else failedPrompt
        let fb2 := buildRepairFmt fp btl prompt_content res.llm_log
        mainGo llm applyRes test prompt_content r (iter + 1) calls2 fb2 fp btl

/-- Processing of one prompt file in `main`: the retry loop followed by the
pass/fail classification recorded to the progress CSV. -/
def processPrompt (llm : Nat → String → String) (applyRes : String → String)
    (test : String → String) (prompt_content : String) : PromptOutcome :=
  mainGo llm applyRes test prompt_content 3 0 0 prompt_content "" ""

/-! ### `run_unit_test` from `run_unit_test.py` -/

/-- Result of one shell command (`subprocess.run`): exit code and combined
stdout/stderr. -/
structure CmdResult where
  exitCode : Int
  output : String

/-- Result of `run_unit_test`: the classification string and whether the test
command was executed. -/
structure TestRunResult where
  out : String
  testRan : Bool
deriving DecidableEq

/-- Model of `run_unit_test` from `run_unit_test.py`.  The build and test command lines
differ per repository, but the outcome classification is shared; `buildRes`
and `testRes` are the results of those two commands.  An unsupported
repository name raises `ValueError` before anything is run (modelled as
`.error`). -/
def run_unit_test (repo_name : String) (buildRes testRes : CmdResult) :
    Except String TestRunResult :=
  if repo_name == "netty" || repo_name == "presto" || repo_name == "kafka"
      || repo_name == "RoaringBitmap" then
    if buildRes.exitCode != 0 then
      .ok ⟨"[BUILD FAILED]\n" ++ buildRes.output, false⟩
    else if testRes.exitCode == 0 then
      .ok ⟨"[TEST PASSED]\n" ++ testRes.output, true⟩
    else
      .ok ⟨"[TEST FAILED]\n" ++ testRes.output, true⟩
  else
    .error ("Unsupported repository name: " ++ repo_name)

/-! ### `print_results` from `Analysis/preprocessing/normalize_score.py`

JMH scores (Python floats) are modelled by rationals. -/

/-- One aggregated benchmark entry inside a (hash, benchmark, params) group of
the `all_results` dictionary. -/
structure BenchEntry where
  model : String
  prompt : String
  trial : String
  score : ℚ
  error : Option ℚ
  unit : String
  mode : String

/-- A key of the `all_results` dictionary. -/
structure BenchKey where
  hash_value : String
  benchmark_name : String
  params : String

/-- One CSV row written by `print_results` (`normalized_performance` is the
empty cell when `none`). -/
structure SummaryRow where
  hash_value : String
  benchmark_name : String
  params : String
  mode : String
  unit : String
  model : String
  prompt : String
  trial : String
  mean : ℚ
  error : Option ℚ
  normalized_performance : Option ℚ

/-- Arithmetic mean of the scores of a list of entries. -/
def meanScore (es : List BenchEntry) : ℚ := (es.map (·.score)).sum / es.length

/-- The developer improvement computed in `print_results`: zero unless the
original mean is positive and the mode is one of avgt/sample/thrpt. -/
def devImprovement (mode : String) (orgMean devMean : ℚ) : ℚ :=
  if orgMean > 0 then
    if mode == "avgt" || mode == "sample" then (orgMean - devMean) / orgMean
    else if mode == "thrpt" then (devMean - orgMean) / orgMean
    else 0
  else 0

/-- The `normalized_performance` of one entry in `print_results` (the value stays
the empty string unless the original mean and the score are positive and the
mode is one of the three known modes). -/
def normalizedPerf (mode : String) (orgMean score : ℚ) : Option ℚ :=
  if orgMean > 0 ∧ score > 0 then
    if mode == "avgt" || mode == "sample" then some (orgMean / score)
    else if mode == "thrpt" then some (score / orgMean)
    else none
  else none

/-- The rows `print_results` writes for one (hash, benchmark, params) group:
empty groups and groups without both an original and a developer entry are
skipped, as are groups whose developer improvement is below 0.05. -/
def groupRows (key : BenchKey) : List BenchEntry → List SummaryRow
  | [] => []
  | e0 :: rest =>
    let entries := e0 :: rest
    let originals := entries.filter (fun e => e.model == "original")
    let developers := entries.filter (fun e => e.model == "developer")
    if originals.isEmpty || developers.isEmpty then []
    else
      let orgMean := meanScore originals
      let devMean := meanScore developers
      let mode := e0.mode
      let improvement := devImprovement mode orgMean devMean
      if improvement < 1/20 then []
      else
        let unitStr := e0.unit
        let paramsStr := if key.params == "" then "" else "\"" ++ key.params ++ "\""
        entries.map (fun e =>
          { hash_value := key.hash_value
            benchmark_name := key.benchmark_name
            params := paramsStr
            mode := mode
            unit := unitStr
            model := e.model
            prompt := e.prompt
            trial := e.trial
            mean := e.score
            error := e.error
            normalized_performance := normalizedPerf mode orgMean e.score })

/-- All CSV rows written by `print_results`, in group order. -/
def print_results (results : List (BenchKey × List BenchEntry)) : List SummaryRow :=
  results.foldr (fun kv acc => groupRows kv.1 kv.2 ++ acc) []

/-! ### `calculate_representative_benchmark_scores`
(`Analysis/preprocessing/final_score.py`) -/

/-- One row of a combined project benchmark summary after
`load_summary_data_from_csv` (rows with `model == "original"` or missing
`normalized_performance` are already dropped there); `params` is `none` for a
missing (NaN) cell. -/
structure ScoreRow where
  project : String
  hash_value : String
  model : String
  prompt : String
  trial : String
  benchmark_name : String
  params : Option String
  normalized_performance : ℚ
deriving DecidableEq

/-- A row with `params` NaN filled with the empty string (`fillna`). -/
def fillParams (r : ScoreRow) : ScoreRow :=
  { r with params := some (r.params.getD "") }

/-- The `dev_hashes` list: hash values having a developer solution. -/
def devHashes (data : List ScoreRow) : List String :=
  (data.filter (fun r => r.model == "developer")).map (·.hash_value)

/-- The `filtered_data` rows: rows of tasks that have a developer solution, with
`params` NaN filled. -/
def filteredData (data : List ScoreRow) : List ScoreRow :=
  (data.filter (fun r => (devHashes data).contains r.hash_value)).map fillParams

/-- First row attaining the maximum `normalized_performance` (pandas `idxmax`
returns the first index of the maximum). -/
def firstMaxRow : List ScoreRow → Option ScoreRow
  | [] => none
  | r :: rest =>
    match firstMaxRow rest with
    | none => some r
    | some m => if m.normalized_performance > r.normalized_performance then some m else some r

/-- The representative benchmark row of a task
(`developer_data.groupby(hash_value).idxmax`). -/
def repRow (data : List ScoreRow) (h : String) : Option ScoreRow :=
  firstMaxRow ((filteredData data).filter
    (fun r => r.model == "developer" && r.hash_value == h))

/-- The rows kept after merging each task's representative benchmark back and
filtering on matching `benchmark_name` and `params`. -/
def finalScoreRows (data : List ScoreRow) : List ScoreRow :=
  (filteredData data).filter (fun r =>
    match repRow data r.hash_value with
    | some rep => r.benchmark_name == rep.benchmark_name && r.params == rep.params
    | none => false)

/-- The `final_score` column of the output CSV. -/
def finalScores (data : List ScoreRow) : List ℚ :=
  (finalScoreRows data).map (·.normalized_performance)

/-! ### `vargha_delaney_a12` and `analyze_median_scores`
(`Analysis/RQ1/wilcoxon_a12.py`) -/

/-- The numpy summand `np.sum(i > j) + 0.5 * np.sum(i == j)` on scalars. -/
def a12Term (i j : ℚ) : ℚ :=
  (if i > j then 1 else 0) + (1 / 2) * (if i = j then 1 else 0)

/-- The summed comprehension `r` of `vargha_delaney_a12`. -/
def a12Sum (x y : List ℚ) : ℚ :=
  (x.map (fun i => (y.map (fun j => a12Term i j)).sum)).sum

/-- Model of `vargha_delaney_a12`: `r / (m * n)`, or NaN (`none`) when either sample is
empty. -/
def vargha_delaney_a12 (x y : List ℚ) : Option ℚ :=
  if x.length = 0 ∨ y.length = 0 then none
  else some (a12Sum x y / ((x.length : ℚ) * (y.length : ℚ)))

/-- Result row appended by `analyze_median_scores` for one configuration pair
(NaN effect size ↦ `none`). -/
structure PairResult where
  pValue : ℚ
  effectSize : Option ℚ

/-- The aligned (dropna) per-task score pairs of two configurations. -/
def commonPairs (tasks : List (Option ℚ × Option ℚ)) : List (ℚ × ℚ) :=
  tasks.filterMap (fun ab =>
    match ab with
    | (some a, some b) => some (a, b)
    | _ => none)

/-- One iteration of the pairwise-comparison loop of `analyze_median_scores`:
`tasks` gives each task's (possibly missing) scores for the two
configurations after the pivot; `wilcoxonP` models `scipy.stats.wilcoxon`
(`none` models the `ValueError` the `except` clause turns into a skip).
`none` overall means the pair produces no result row. -/
def analyzePair (tasks : List (Option ℚ × Option ℚ))
    (wilcoxonP : List (ℚ × ℚ) → Option ℚ) : Option PairResult :=
  let pairs := commonPairs tasks
  if pairs.isEmpty ∨ pairs.length < 10 then none
  else
    match wilcoxonP pairs with
    | none => none
    | some p =>
      some { pValue := p
             effectSize :=
               if p < 1 / 20 then
                 vargha_delaney_a12 (pairs.map (·.1)) (pairs.map (·.2))
               else none }

/-! ### Statement helpers -/

/-- Boolean starts-with test on strings. -/
def startsWithB (s pre : String) : Bool := isPrefixB pre.data s.data

/-- Number of index pairs `(i, j)` with `x_i > y_j`. -/
def countGT (x y : List ℚ) : Nat :=
  (x.map (fun i => (y.filter (fun j => decide (j < i))).length)).sum

/-- Number of index pairs `(i, j)` with `x_i = y_j`. -/
def countEQ (x y : List ℚ) : Nat :=
  (x.map (fun i => (y.filter (fun j => decide (j = i))).length)).sum

/-! ## Theorems -/

theorem strData_append (a b : String) : (a ++ b).data = a.data ++ b.data := rfl

theorem isPrefixB_append (p : List Char) :
    ∀ (l s : List Char), p.length ≤ l.length → isPrefixB p (l ++ s) = isPrefixB p l := by
  induction p with
  | nil => intro l s _; simp [isPrefixB]
  | cons a as ih =>
    intro l s hlen
    cases l with
    | nil => simp at hlen
    | cons b bs =>
      simp only [List.cons_append, isPrefixB, List.append_eq]
      rw [ih bs s (by simpa using hlen)]

theorem startsWithB_lit_append (pre lit s : String) (h : pre.data.length ≤ lit.data.length) :
    startsWithB (lit ++ s) pre = isPrefixB pre.data lit.data := by
  simp only [startsWithB, strData_append]
  exact isPrefixB_append _ _ _ h

/-- C3: for each of the four supported repository names, `run_unit_test`
returns a string beginning with exactly one of the tags `[BUILD FAILED]`,
`[TEST PASSED]`, `[TEST FAILED]`; it is `[BUILD FAILED]` iff the build command
exits nonzero (and then the test command is never run), otherwise
`[TEST PASSED]` iff the test command exits zero; any other repository name
raises `ValueError`. -/
theorem run_unit_test_classification (repo : String) (b t : CmdResult) :
    ((repo = "netty" ∨ repo = "presto" ∨ repo = "kafka" ∨ repo = "RoaringBitmap") →
      ∃ res, run_unit_test repo b t = .ok res ∧
        (["[BUILD FAILED]", "[TEST PASSED]", "[TEST FAILED]"].filter
            (fun tag => startsWithB res.out tag)).length = 1 ∧
        (startsWithB res.out "[BUILD FAILED]" = true ↔ b.exitCode ≠ 0) ∧
        (res.testRan = false ↔ b.exitCode ≠ 0) ∧
        (b.exitCode = 0 → (startsWithB res.out "[TEST PASSED]" = true ↔ t.exitCode = 0))) ∧
    (¬(repo = "netty" ∨ repo = "presto" ∨ repo = "kafka" ∨ repo = "RoaringBitmap") →
      run_unit_test repo b t = .error ("Unsupported repository name: " ++ repo)) := by
  have hb : ∀ s : String,
      startsWithB ("[BUILD FAILED]\n" ++ s) "[BUILD FAILED]" = true ∧
      startsWithB ("[BUILD FAILED]\n" ++ s) "[TEST PASSED]" = false ∧
      startsWithB ("[BUILD FAILED]\n" ++ s) "[TEST FAILED]" = false := by
    intro s
    refine ⟨?_, ?_, ?_⟩ <;>
      rw [startsWithB_lit_append _ _ _ (by decide)] <;> decide
  have hp : ∀ s : String,
      startsWithB ("[TEST PASSED]\n" ++ s) "[BUILD FAILED]" = false ∧
      startsWithB ("[TEST PASSED]\n" ++ s) "[TEST PASSED]" = true ∧
      startsWithB ("[TEST PASSED]\n" ++ s) "[TEST FAILED]" = false := by
    intro s
    refine ⟨?_, ?_, ?_⟩ <;>
      rw [startsWithB_lit_append _ _ _ (by decide)] <;> decide
  have hf : ∀ s : String,
      startsWithB ("[TEST FAILED]\n" ++ s) "[BUILD FAILED]" = false ∧
      startsWithB ("[TEST FAILED]\n" ++ s) "[TEST PASSED]" = false ∧
      startsWithB ("[TEST FAILED]\n" ++ s) "[TEST FAILED]" = true := by
    intro s
    refine ⟨?_, ?_, ?_⟩ <;>
      rw [startsWithB_lit_append _ _ _ (by decide)] <;> decide
  constructor
  · intro hrepo
    have hcond : (repo == "netty" || repo == "presto" || repo == "kafka"
        || repo == "RoaringBitmap") = true := by
      rcases hrepo with h | h | h | h <;> simp [h]
    by_cases hbuild : b.exitCode = 0
    · by_cases htest : t.exitCode = 0
      · refine ⟨⟨"[TEST PASSED]\n" ++ t.output, true⟩, ?_, ?_, ?_, ?_, ?_⟩
        · simp [run_unit_test, hcond, hbuild, htest]
        · simp [List.filter, (hp t.output).1, (hp t.output).2.1, (hp t.output).2.2]
        · simp [(hp t.output).1, hbuild]
        · simp [hbuild]
        · intro _; simp [(hp t.output).2.1, htest]
      · refine ⟨⟨"[TEST FAILED]\n" ++ t.output, true⟩, ?_, ?_, ?_, ?_, ?_⟩
        · simp [run_unit_test, hcond, hbuild, htest]
        · simp [List.filter, (hf t.output).1, (hf t.output).2.1, (hf t.output).2.2]
        · simp [(hf t.output).1, hbuild]
        · simp [hbuild]
        · intro _; simp [(hf t.output).2.1, htest]
    · refine ⟨⟨"[BUILD FAILED]\n" ++ b.output, false⟩, ?_, ?_, ?_, ?_, ?_⟩
      · simp [run_unit_test, hcond, hbuild]
      · simp [List.filter, (hb b.output).1, (hb b.output).2.1, (hb b.output).2.2]
      · simp [(hb b.output).1, hbuild]
      · simp [hbuild]
      · intro h; exact absurd h hbuild
  · intro hrepo
    have hcond : (repo == "netty" || repo == "presto" || repo == "kafka"
        || repo == "RoaringBitmap") = false := by
      push_neg at hrepo
      simp only [Bool.or_eq_false_iff, beq_eq_false_iff_ne, ne_eq]
      exact ⟨⟨⟨hrepo.1, hrepo.2.1⟩, hrepo.2.2.1⟩, hrepo.2.2.2⟩
    simp [run_unit_test, hcond]

/-- Witness for C3: a concrete nonzero build exit on netty yields a
`[BUILD FAILED]` result with the test command never run. -/
theorem run_unit_test_classification_witness :
    ∃ res, run_unit_test "netty" ⟨1, "boom"⟩ ⟨0, "ok"⟩ = .ok res ∧
      startsWithB res.out "[BUILD FAILED]" = true ∧ res.testRan = false := by
  obtain ⟨res, h1, _, h3, h4, _⟩ :=
    (run_unit_test_classification "netty" ⟨1, "boom"⟩ ⟨0, "ok"⟩).1 (Or.inl rfl)
  exact ⟨res, h1, h3.mpr (by decide), h4.mpr (by decide)⟩

/-- C7: for a positive original mean and positive score, the
`normalized_performance` cell is `org_mean / score` for modes avgt and sample,
`score / org_mean` for mode thrpt and empty for every other mode; for the
three modes the value exceeds 1 exactly when the entry beats the original
baseline (smaller time, respectively larger throughput). -/
theorem normalized_performance_formula (mode : String) (orgMean score : ℚ)
    (horg : 0 < orgMean) (hs : 0 < score) :
    ((mode = "avgt" ∨ mode = "sample") →
      normalizedPerf mode orgMean score = some (orgMean / score) ∧
      (1 < orgMean / score ↔ score < orgMean)) ∧
    (mode = "thrpt" →
      normalizedPerf mode orgMean score = some (score / orgMean) ∧
      (1 < score / orgMean ↔ orgMean < score)) ∧
    (mode ≠ "avgt" → mode ≠ "sample" → mode ≠ "thrpt" →
      normalizedPerf mode orgMean score = none) := by
  refine ⟨?_, ?_, ?_⟩
  · rintro (h | h) <;>
      exact ⟨by simp [normalizedPerf, h, horg, hs], one_lt_div hs⟩
  · intro h
    refine ⟨?_, one_lt_div horg⟩
    simp [normalizedPerf, h, horg, hs]
  · intro h1 h2 h3
    simp [normalizedPerf, h1, h2, h3, horg, hs]

/-- Witness for C7: mode avgt, original mean 3, score 2 gives 3/2 > 1. -/
theorem normalized_performance_formula_witness :
    normalizedPerf "avgt" 3 2 = some (3 / 2) ∧ (1 < (3 : ℚ) / 2 ↔ (2 : ℚ) < 3) := by
  have h := (normalized_performance_formula "avgt" 3 2 (by norm_num) (by norm_num)).1
    (Or.inl rfl)
  exact h

/-- C10: a pair of configurations produces a result row only when at least 10
tasks have scores for both (fewer are silently skipped), and the A12 effect
size is recorded exactly when the Wilcoxon p-value is below 0.05, being NaN
otherwise. -/
theorem analyze_median_scores_pair (tasks : List (Option ℚ × Option ℚ))
    (wp : List (ℚ × ℚ) → Option ℚ) :
    ((commonPairs tasks).length < 10 → analyzePair tasks wp = none) ∧
    (∀ row, analyzePair tasks wp = some row →
      10 ≤ (commonPairs tasks).length ∧
      wp (commonPairs tasks) = some row.pValue ∧
      (row.pValue < 1 / 20 →
        row.effectSize = vargha_delaney_a12 ((commonPairs tasks).map (·.1))
          ((commonPairs tasks).map (·.2))) ∧
      (¬row.pValue < 1 / 20 → row.effectSize = none)) := by
  constructor
  · intro hlt
    simp only [analyzePair]
    rw [if_pos (Or.inr hlt)]
  · intro row h
    by_cases hlt : (commonPairs tasks).length < 10
    · exfalso
      simp only [analyzePair] at h
      rw [if_pos (Or.inr hlt)] at h
      exact Option.noConfusion h
    · have hcond : ¬((commonPairs tasks).isEmpty ∨ (commonPairs tasks).length < 10) := by
        push_neg at hlt ⊢
        refine ⟨?_, hlt⟩
        have : (commonPairs tasks).length ≠ 0 := by omega
        simpa [List.isEmpty_iff_length_eq_zero] using this
      simp only [analyzePair] at h
      rw [if_neg hcond] at h
      cases hw : wp (commonPairs tasks) with
      | none => rw [hw] at h; exact absurd h (by simp)
      | some p =>
        rw [hw] at h
        have hrow : (⟨p, if p < 1 / 20 then
            vargha_delaney_a12 ((commonPairs tasks).map (·.1))
              ((commonPairs tasks).map (·.2)) else none⟩ : PairResult) = row :=
          Option.some.inj h
        refine ⟨by omega, ?_, ?_, ?_⟩
        · rw [← hrow]
        · intro hp; rw [← hrow] at hp ⊢; simp only at hp ⊢; rw [if_pos hp]
        · intro hp; rw [← hrow] at hp ⊢; simp only at hp ⊢; rw [if_neg hp]

/-- Witness for C10: ten common tasks and a significant p-value of 0 produce
a row whose effect size is the A12 statistic. -/
theorem analyze_median_scores_pair_witness :
    10 ≤ (commonPairs (List.replicate 10 ((some 1 : Option ℚ), (some 2 : Option ℚ)))).length ∧
    (PairResult.mk 0
        (vargha_delaney_a12 (List.replicate 10 (1 : ℚ))
          (List.replicate 10 (2 : ℚ)))).effectSize
      = vargha_delaney_a12 (List.replicate 10 (1 : ℚ)) (List.replicate 10 (2 : ℚ)) := by
  have hR : analyzePair (List.replicate 10 ((some 1 : Option ℚ), (some 2 : Option ℚ)))
      (fun _ => some 0)
      = some ⟨0, vargha_delaney_a12 (List.replicate 10 (1 : ℚ))
          (List.replicate 10 (2 : ℚ))⟩ := by
    simp only [analyzePair]
    rw [if_neg (by decide)]
    show some (⟨(0 : ℚ), if (0 : ℚ) < 1 / 20 then _ else none⟩ : PairResult) = _
    rw [if_pos (show (0 : ℚ) < 1 / 20 by norm_num)]
    rfl
  have h := (analyze_median_scores_pair
      (List.replicate 10 ((some 1 : Option ℚ), (some 2 : Option ℚ)))
      (fun _ => some 0)).2
    ⟨0, vargha_delaney_a12 (List.replicate 10 (1 : ℚ)) (List.replicate 10 (2 : ℚ))⟩ hR
  exact ⟨h.1, h.2.2.1 (by norm_num)⟩

theorem a12_list_sum_map_add (f g : ℚ → ℚ) (l : List ℚ) :
    (l.map (fun j => f j + g j)).sum = (l.map f).sum + (l.map g).sum := by
  induction l with
  | nil => simp
  | cons a t ih => simp only [List.map_cons, List.sum_cons, ih]; ring

theorem a12_list_sum_map_const (q : ℚ) (xs : List ℚ) :
    (xs.map (fun _ => q)).sum = xs.length * q := by
  induction xs with
  | cons z zs ih =>
    rw [List.map_cons, List.sum_cons, ih, List.length_cons]
    push_cast
    ring
  | nil => simp

theorem a12Term_nonneg (i j : ℚ) : 0 ≤ a12Term i j := by
  unfold a12Term
  split <;> split <;> norm_num

theorem a12Term_le_one (i j : ℚ) : a12Term i j ≤ 1 := by
  unfold a12Term
  rcases lt_trichotomy i j with h | h | h
  · rw [if_neg (not_lt.mpr h.le), if_neg h.ne]; norm_num
  · rw [if_neg (by simp [h]), if_pos h]; norm_num
  · rw [if_pos h, if_neg h.ne']; norm_num

theorem a12Term_add_symm (i j : ℚ) : a12Term i j + a12Term j i = 1 := by
  unfold a12Term
  rcases lt_trichotomy i j with h | h | h
  · rw [if_neg (not_lt.mpr h.le), if_neg h.ne, if_pos h, if_neg h.ne']
    norm_num
  · rw [if_neg (by simp [h]), if_pos h, if_neg (by simp [h]), if_pos h.symm]
    norm_num
  · rw [if_pos h, if_neg h.ne', if_neg (not_lt.mpr h.le), if_neg h.ne]
    norm_num

theorem a12_inner_eq (i : ℚ) (y : List ℚ) :
    (y.map (fun j => a12Term i j)).sum
      = ((y.filter (fun j => decide (j < i))).length : ℚ)
        + ((y.filter (fun j => decide (j = i))).length : ℚ) / 2 := by
  induction y with
  | nil => simp
  | cons j t ih =>
    simp only [List.map_cons, List.sum_cons, List.filter_cons, ih]
    rcases lt_trichotomy j i with h | h | h
    · rw [if_pos (by simpa using h), if_neg (by simpa using h.ne)]
      rw [show a12Term i j = 1 by
        unfold a12Term
        rw [if_pos h, if_neg h.ne']
        norm_num]
      simp only [List.length_cons]
      push_cast
      ring
    · rw [if_neg (by simpa using not_lt.mpr h.ge), if_pos (by simpa using h)]
      rw [show a12Term i j = 1 / 2 by
        unfold a12Term
        rw [if_neg (by simp [h]), if_pos h.symm]
        norm_num]
      simp only [List.length_cons]
      push_cast
      ring
    · rw [if_neg (by simpa using not_lt.mpr h.le),
        if_neg (by simpa using h.ne')]
      rw [show a12Term i j = 0 by
        unfold a12Term
        rw [if_neg (not_lt.mpr h.le), if_neg h.ne]
        norm_num]
      ring

theorem a12Sum_eq_counts (x y : List ℚ) :
    a12Sum x y = (countGT x y : ℚ) + (countEQ x y : ℚ) / 2 := by
  induction x with
  | nil => simp [a12Sum, countGT, countEQ]
  | cons i t ih =>
    simp only [a12Sum, countGT, countEQ, List.map_cons, List.sum_cons] at ih ⊢
    rw [a12_inner_eq, ih]
    push_cast
    ring

theorem a12Sum_nonneg (x y : List ℚ) : 0 ≤ a12Sum x y := by
  apply List.sum_nonneg
  intro v hv
  simp only [List.mem_map] at hv
  obtain ⟨i, _, rfl⟩ := hv
  apply List.sum_nonneg
  intro w hw
  simp only [List.mem_map] at hw
  obtain ⟨j, _, rfl⟩ := hw
  exact a12Term_nonneg i j

theorem a12Sum_le_card (x y : List ℚ) : a12Sum x y ≤ (x.length : ℚ) * (y.length : ℚ) := by
  unfold a12Sum
  calc (x.map (fun i => (y.map (fun j => a12Term i j)).sum)).sum
      ≤ (x.map (fun _ => (y.length : ℚ))).sum := by
        apply List.sum_le_sum
        intro i _
        have h := List.sum_le_card_nsmul (y.map (fun j => a12Term i j)) 1 ?_
        · simpa [nsmul_eq_mul] using h
        · intro v hv
          simp only [List.mem_map] at hv
          obtain ⟨j, _, rfl⟩ := hv
          exact a12Term_le_one i j
      _ = (x.length : ℚ) * (y.length : ℚ) := a12_list_sum_map_const _ x

theorem a12_sum_swap (g : ℚ → ℚ → ℚ) (x y : List ℚ) :
    (x.map (fun i => (y.map (fun j => g i j)).sum)).sum
      = (y.map (fun j => (x.map (fun i => g i j)).sum)).sum := by
  induction x with
  | nil => simp
  | cons a t ih =>
    simp only [List.map_cons, List.sum_cons, ih]
    rw [a12_list_sum_map_add (fun j => g a j) (fun j => (t.map (fun i => g i j)).sum) y]

theorem a12Sum_add_swap (x y : List ℚ) :
    a12Sum x y + a12Sum y x = (x.length : ℚ) * (y.length : ℚ) := by
  have hpt : ∀ i : ℚ,
      (y.map (fun j => a12Term i j)).sum + (y.map (fun j => a12Term j i)).sum
        = (y.length : ℚ) := by
    intro i
    rw [← a12_list_sum_map_add (fun j => a12Term i j) (fun j => a12Term j i) y]
    calc (y.map (fun j => a12Term i j + a12Term j i)).sum
        = (y.map (fun _ => (1 : ℚ))).sum := by
          congr 1
          apply List.map_congr_left
          intro j _
          exact a12Term_add_symm i j
      _ = (y.length : ℚ) * 1 := a12_list_sum_map_const 1 y
      _ = (y.length : ℚ) := by ring
  unfold a12Sum
  rw [a12_sum_swap a12Term y x,
    ← a12_list_sum_map_add (fun i => (y.map (fun j => a12Term i j)).sum)
      (fun i => (y.map (fun j => a12Term j i)).sum) x]
  calc (x.map (fun i => (y.map (fun j => a12Term i j)).sum
          + (y.map (fun j => a12Term j i)).sum)).sum
      = (x.map (fun _ => (y.length : ℚ))).sum := by
        congr 1
        apply List.map_congr_left
        intro i _
        exact hpt i
      _ = (x.length : ℚ) * (y.length : ℚ) := a12_list_sum_map_const _ x

/-- C8: for non-empty samples, `vargha_delaney_a12(x, y)` equals
(#{x_i > y_j} + #{x_i = y_j}/2) / (m*n), lies in [0, 1], and satisfies the
complement identity A12(x,y) + A12(y,x) = 1 used to fill the symmetric
effect-size matrix with one minus the transpose. -/
theorem vargha_delaney_a12_properties (x y : List ℚ) (hx : x ≠ []) (hy : y ≠ []) :
    ∃ v w, vargha_delaney_a12 x y = some v ∧ vargha_delaney_a12 y x = some w ∧
      v = ((countGT x y : ℚ) + (countEQ x y : ℚ) / 2)
            / ((x.length : ℚ) * (y.length : ℚ)) ∧
      0 ≤ v ∧ v ≤ 1 ∧ v + w = 1 := by
  have hxl : x.length ≠ 0 := by simpa [List.length_eq_zero] using hx
  have hyl : y.length ≠ 0 := by simpa [List.length_eq_zero] using hy
  have hmn : (0 : ℚ) < (x.length : ℚ) * (y.length : ℚ) := by
    have h1 : (0 : ℚ) < (x.length : ℚ) := by
      exact_mod_cast Nat.pos_of_ne_zero hxl
    have h2 : (0 : ℚ) < (y.length : ℚ) := by
      exact_mod_cast Nat.pos_of_ne_zero hyl
    exact mul_pos h1 h2
  refine ⟨a12Sum x y / ((x.length : ℚ) * (y.length : ℚ)),
    a12Sum y x / ((y.length : ℚ) * (x.length : ℚ)), ?_, ?_, ?_, ?_, ?_, ?_⟩
  · unfold vargha_delaney_a12
    rw [if_neg (by push_neg; exact ⟨hxl, hyl⟩)]
  · unfold vargha_delaney_a12
    rw [if_neg (by push_neg; exact ⟨hyl, hxl⟩)]
  · rw [a12Sum_eq_counts]
  · exact div_nonneg (a12Sum_nonneg x y) (le_of_lt hmn)
  · exact (div_le_one hmn).mpr (a12Sum_le_card x y)
  · rw [mul_comm (y.length : ℚ) (x.length : ℚ), div_add_div_same, a12Sum_add_swap]
    exact div_self (ne_of_gt hmn)

/-- Witness for C8: the samples [1, 2] and [2]. -/
theorem vargha_delaney_a12_properties_witness :
    ∃ v w, vargha_delaney_a12 [1, 2] [2] = some v ∧ vargha_delaney_a12 [2] [1, 2] = some w ∧
      v = ((countGT [1, 2] [2] : ℚ) + (countEQ [1, 2] [2] : ℚ) / 2)
            / ((([1, 2] : List ℚ).length : ℚ) * (([2] : List ℚ).length : ℚ)) ∧
      0 ≤ v ∧ v ≤ 1 ∧ v + w = 1 :=
  vargha_delaney_a12_properties [1, 2] [2] (by simp) (by simp)

theorem isPrefixB_self_append (p r : List Char) : isPrefixB p (p ++ r) = true := by
  induction p with
  | nil => rfl
  | cons a as ih => simp [isPrefixB, ih]

theorem containsSub_of_isPrefixB {p s : List Char} (h : isPrefixB p s = true) :
    containsSub p s = true := by
  cases s with
  | nil =>
    cases p with
    | nil => rfl
    | cons a as => simp [isPrefixB] at h
  | cons b bs => simp [containsSub, h]

theorem containsSub_append_left (p a : List Char) {s : List Char}
    (h : containsSub p s = true) : containsSub p (a ++ s) = true := by
  induction a with
  | nil => simpa using h
  | cons c cs ih =>
    simp only [List.cons_append, containsSub, Bool.or_eq_true]
    exact Or.inr ih

theorem containsSub_middle (a p c : List Char) : containsSub p (a ++ (p ++ c)) = true :=
  containsSub_append_left p a (containsSub_of_isPrefixB (isPrefixB_self_append p c))

theorem strAppend_assoc (a b c : String) : (a ++ b) ++ c = a ++ (b ++ c) := by
  apply String.ext
  show (a.data ++ b.data) ++ c.data = a.data ++ (b.data ++ c.data)
  exact List.append_assoc _ _ _

theorem pyIn_append_left (n s t : String) (h : pyIn n t = true) : pyIn n (s ++ t) = true := by
  show containsSub n.data (s.data ++ t.data) = true
  exact containsSub_append_left _ _ h

theorem pyIn_self_append (n t : String) : pyIn n (n ++ t) = true := by
  show containsSub n.data (n.data ++ t.data) = true
  exact containsSub_of_isPrefixB (isPrefixB_self_append _ _)

theorem pyIn_repair_patch (dp lg pc : String) : pyIn dp (repairPromptFmt dp lg pc) = true := by
  unfold repairPromptFmt
  simp only [strAppend_assoc]
  exact pyIn_append_left _ _ _ (pyIn_self_append _ _)

theorem pyIn_repair_log (dp lg pc : String) : pyIn lg (repairPromptFmt dp lg pc) = true := by
  unfold repairPromptFmt
  simp only [strAppend_assoc]
  exact pyIn_append_left _ _ _ (pyIn_append_left _ _ _ (pyIn_append_left _ _ _
    (pyIn_self_append _ _)))

theorem improveGo_zero (llm : Nat → String → String) (a : String → String) (pc : String)
    (base made : Nat) (fb lg dp : String) :
    improveGo llm a pc base 0 made fb lg dp
      = if pyIn "[Format Error]" dp then ⟨"Failed", lg, dp, made, []⟩
        else ⟨"Success", lg, dp, made, []⟩ := rfl

theorem improveGo_succ (llm : Nat → String → String) (a : String → String) (pc : String)
    (base : Nat) (r made : Nat) (fb lg dp : String) :
    improveGo llm a pc base (r + 1) made fb lg dp
      = (let log := llm (base + made) fb
         let patch := a log
         if !(pyIn "[Format Error]" patch) then ⟨"Success", log, patch, made + 1, [fb]⟩
         else
           let fb2 := repairPromptFmt patch log pc
           let res := improveGo llm a pc base r (made + 1) fb2 log patch
           { res with promptsUsed := fb :: res.promptsUsed }) := rfl

/-- C5: `improve_code_with_llm` returns "Success" iff the returned diff patch
has no `[Format Error]`, returns "Failed" only after its 2 iterations with the
final patch still erroneous, and a format error on the first iteration leads
to a second LLM call whose self-repair prompt contains the error string and
the previous LLM output, never to a direct failure. -/
theorem improve_code_with_llm_spec (llm : Nat → String → String) (applyRes : String → String)
    (pc : String) (base : Nat) :
    ((improve_code_with_llm llm applyRes pc base).status = "Success"
      ↔ pyIn "[Format Error]" (improve_code_with_llm llm applyRes pc base).diff_patch
          = false) ∧
    ((improve_code_with_llm llm applyRes pc base).status = "Failed" →
      (improve_code_with_llm llm applyRes pc base).calls = 2 ∧
      pyIn "[Format Error]" (improve_code_with_llm llm applyRes pc base).diff_patch
        = true) ∧
    (pyIn "[Format Error]" (applyRes (llm base pc)) = true →
      (improve_code_with_llm llm applyRes pc base).calls = 2 ∧
      (improve_code_with_llm llm applyRes pc base).promptsUsed
        = [pc, repairPromptFmt (applyRes (llm base pc)) (llm base pc) pc] ∧
      pyIn (applyRes (llm base pc))
          (repairPromptFmt (applyRes (llm base pc)) (llm base pc) pc) = true ∧
      pyIn (llm base pc)
          (repairPromptFmt (applyRes (llm base pc)) (llm base pc) pc) = true) := by
  have e2 : (2 : Nat) = 1 + 1 := rfl
  have e1 : (1 : Nat) = 0 + 1 := rfl
  by_cases h1 : pyIn "[Format Error]" (applyRes (llm base pc)) = true
  · by_cases h2 : pyIn "[Format Error]"
        (applyRes (llm (base + 1)
          (repairPromptFmt (applyRes (llm base pc)) (llm base pc) pc))) = true
    · have hval : improve_code_with_llm llm applyRes pc base
          = ⟨"Failed",
              llm (base + 1) (repairPromptFmt (applyRes (llm base pc)) (llm base pc) pc),
              applyRes (llm (base + 1)
                (repairPromptFmt (applyRes (llm base pc)) (llm base pc) pc)),
              2, [pc, repairPromptFmt (applyRes (llm base pc)) (llm base pc) pc]⟩ := by
        unfold improve_code_with_llm
        rw [e2, improveGo_succ]
        simp only [Nat.add_zero, h1, Bool.not_true, Bool.false_eq_true, if_false]
        rw [e1, improveGo_succ]
        simp only [h2, Bool.not_true, Bool.false_eq_true, if_false, improveGo_zero,
          eq_self_iff_true, if_true]
      rw [hval]
      refine ⟨?_, ?_, ?_⟩
      · constructor
        · intro hcon
          have hcon2 : "Failed" = "Success" := hcon
          exact absurd hcon2 (by decide)
        · intro hcon; exact absurd (h2.symm.trans hcon) (by decide)
      · intro _; exact ⟨rfl, h2⟩
      · intro _
        exact ⟨rfl, rfl, pyIn_repair_patch _ _ _, pyIn_repair_log _ _ _⟩
    · rw [Bool.not_eq_true] at h2
      have hval : improve_code_with_llm llm applyRes pc base
          = ⟨"Success",
              llm (base + 1) (repairPromptFmt (applyRes (llm base pc)) (llm base pc) pc),
              applyRes (llm (base + 1)
                (repairPromptFmt (applyRes (llm base pc)) (llm base pc) pc)),
              2, [pc, repairPromptFmt (applyRes (llm base pc)) (llm base pc) pc]⟩ := by
        unfold improve_code_with_llm
        rw [e2, improveGo_succ]
        simp only [Nat.add_zero, h1, Bool.not_true, Bool.false_eq_true, if_false]
        rw [e1, improveGo_succ]
        simp only [h2, Bool.not_false, if_true]
      rw [hval]
      refine ⟨?_, ?_, ?_⟩
      · exact ⟨fun _ => h2, fun _ => rfl⟩
      · intro hcon
        have hcon2 : "Success" = "Failed" := hcon
        exact absurd hcon2 (by decide)
      · intro _
        exact ⟨rfl, rfl, pyIn_repair_patch _ _ _, pyIn_repair_log _ _ _⟩
  · rw [Bool.not_eq_true] at h1
    have hval : improve_code_with_llm llm applyRes pc base
        = ⟨"Success", llm base pc, applyRes (llm base pc), 1, [pc]⟩ := by
      unfold improve_code_with_llm
      rw [e2, improveGo_succ]
      simp only [Nat.add_zero, h1, Bool.not_false, if_true]
    rw [hval]
    refine ⟨?_, ?_, ?_⟩
    · exact ⟨fun _ => h1, fun _ => rfl⟩
    · intro hcon
      have hcon2 : "Success" = "Failed" := hcon
      exact absurd hcon2 (by decide)
    · intro hcon; exact absurd (h1.symm.trans hcon) (by decide)

/-- Witness for C5: an apply result that always carries a format error makes
`improve_code_with_llm` fail with 2 calls and an erroneous final patch. -/
theorem improve_code_with_llm_spec_witness :
    (improve_code_with_llm (fun _ _ => "log") (fun _ => "[Format Error] bad") "P" 0).calls = 2 ∧
    pyIn "[Format Error]"
      (improve_code_with_llm (fun _ _ => "log") (fun _ => "[Format Error] bad") "P" 0).diff_patch
      = true :=
  (improve_code_with_llm_spec (fun _ _ => "log") (fun _ => "[Format Error] bad") "P" 0).2.1 rfl

theorem mainGo_zero (llm : Nat → String → String) (a test : String → String) (pc : String)
    (iter calls : Nat) (fb fp btl : String) :
    mainGo llm a test pc 0 iter calls fb fp btl
      = ⟨if pyIn "[TEST PASSED]" btl then "pass" else "fail", iter, calls⟩ := rfl

theorem mainGo_succ (llm : Nat → String → String) (a test : String → String) (pc : String)
    (r iter calls : Nat) (fb fp btl : String) :
    mainGo llm a test pc (r + 1) iter calls fb fp btl
      = (let res := improve_code_with_llm llm a fb calls
         let calls2 := calls + res.calls
         if res.status == "Failed" then
           mainGo llm a test pc r (iter + 1) calls2 fb fp
             "[APPLIED FAILED] Not all generated code changes successfully applied!"
         else
           let btl2 := test res.llm_log
           if pyIn "[TEST PASSED]" btl2 then ⟨"pass", iter + 1, calls2⟩
           else
             let fp2 := if pyIn "[BUILD FAILED]" btl2 then "Build failed"
               else if pyIn "[TEST FAILED]" btl2 then "The unit test failed" else fp
             mainGo llm a test pc r (iter + 1) calls2 (buildRepairFmt fp2 btl2 pc res.llm_log)
               fp2 btl2) := rfl

theorem improveGo_calls_le (llm : Nat → String → String) (a : String → String) (pc : String)
    (base : Nat) :
    ∀ r made fb lg dp, (improveGo llm a pc base r made fb lg dp).calls ≤ made + r := by
  intro r
  induction r with
  | zero =>
    intro made fb lg dp
    rw [improveGo_zero]
    split <;> simp
  | succ n ih =>
    intro made fb lg dp
    rw [improveGo_succ]
    simp only
    by_cases h : pyIn "[Format Error]" (a (llm (base + made) fb)) = true
    · simp only [h, Bool.not_true, Bool.false_eq_true, if_false]
      have hrec := ih (made + 1)
        (repairPromptFmt (a (llm (base + made) fb)) (llm (base + made) fb) pc)
        (llm (base + made) fb) (a (llm (base + made) fb))
      show (improveGo llm a pc base n (made + 1)
        (repairPromptFmt (a (llm (base + made) fb)) (llm (base + made) fb) pc)
        (llm (base + made) fb) (a (llm (base + made) fb))).calls ≤ made + (n + 1)
      omega
    · rw [Bool.not_eq_true] at h
      simp only [h, Bool.not_false, if_true]
      show made + 1 ≤ made + (n + 1)
      omega

theorem mainGo_bounds (llm : Nat → String → String) (a test : String → String) (pc : String) :
    ∀ r iter calls fb fp btl,
      (mainGo llm a test pc r iter calls fb fp btl).iterations ≤ iter + r ∧
      (mainGo llm a test pc r iter calls fb fp btl).llmCalls ≤ calls + 2 * r ∧
      ((mainGo llm a test pc r iter calls fb fp btl).status = "pass" ∨
        (mainGo llm a test pc r iter calls fb fp btl).status = "fail") := by
  intro r
  induction r with
  | zero =>
    intro iter calls fb fp btl
    rw [mainGo_zero]
    refine ⟨by simp, by simp, ?_⟩
    by_cases h : pyIn "[TEST PASSED]" btl = true
    · left; simp [h]
    · rw [Bool.not_eq_true] at h
      right; simp [h]
  | succ n ih =>
    intro iter calls fb fp btl
    rw [mainGo_succ]
    simp only
    have hcalls : (improve_code_with_llm llm a fb calls).calls ≤ 2 :=
      improveGo_calls_le llm a fb calls 2 0 fb "" ""
    by_cases hs : ((improve_code_with_llm llm a fb calls).status == "Failed") = true
    · simp only [hs, if_true]
      refine ⟨le_trans (ih _ _ _ _ _).1 (by omega),
        le_trans (ih _ _ _ _ _).2.1 (by omega), (ih _ _ _ _ _).2.2⟩
    · rw [Bool.not_eq_true] at hs
      simp only [hs, Bool.false_eq_true, if_false]
      by_cases hp : pyIn "[TEST PASSED]" (test (improve_code_with_llm llm a fb calls).llm_log)
          = true
      · simp only [hp, if_true]
        refine ⟨?_, ?_, Or.inl (by trivial)⟩
        · show iter + 1 ≤ iter + (n + 1)
          omega
        · show calls + (improve_code_with_llm llm a fb calls).calls ≤ calls + 2 * (n + 1)
          omega
      · rw [Bool.not_eq_true] at hp
        simp only [hp, Bool.false_eq_true, if_false]
        refine ⟨le_trans (ih _ _ _ _ _).1 (by omega),
          le_trans (ih _ _ _ _ _).2.1 (by omega), (ih _ _ _ _ _).2.2⟩

/-- C2: the repair loop terminates for every prompt: `improve_code_with_llm`
makes at most 2 LLM calls, the outer retry loop in `main` runs at most 3
iterations, at most 6 LLM calls are made in total, and the prompt is then
recorded as pass or fail. -/
theorem repair_loop_call_bound (llm : Nat → String → String) (applyRes : String → String)
    (test : String → String) (pc : String) :
    (∀ feedback base, (improve_code_with_llm llm applyRes feedback base).calls ≤ 2) ∧
    (processPrompt llm applyRes test pc).iterations ≤ 3 ∧
    (processPrompt llm applyRes test pc).llmCalls ≤ 6 ∧
    ((processPrompt llm applyRes test pc).status = "pass" ∨
      (processPrompt llm applyRes test pc).status = "fail") := by
  have h := mainGo_bounds llm applyRes test pc 3 0 0 pc "" ""
  exact ⟨fun feedback base => improveGo_calls_le llm applyRes feedback base 2 0 feedback "" "",
    by simpa using h.1, by simpa using h.2.1, h.2.2⟩

theorem print_results_cons (kv : BenchKey × List BenchEntry)
    (rest : List (BenchKey × List BenchEntry)) :
    print_results (kv :: rest) = groupRows kv.1 kv.2 ++ print_results rest := rfl

theorem mem_print_results {row : SummaryRow} {results : List (BenchKey × List BenchEntry)} :
    row ∈ print_results results ↔ ∃ kv ∈ results, row ∈ groupRows kv.1 kv.2 := by
  induction results with
  | nil => simp [print_results]
  | cons kv rest ih =>
    rw [print_results_cons]
    simp only [List.mem_append, ih, List.mem_cons]
    constructor
    · rintro (h | ⟨kv2, hkv2, h2⟩)
      · exact ⟨kv, Or.inl rfl, h⟩
      · exact ⟨kv2, Or.inr hkv2, h2⟩
    · rintro ⟨kv2, hin, h2⟩
      rcases hin with rfl | hin
      · exact Or.inl h2
      · exact Or.inr ⟨kv2, hin, h2⟩

theorem devImprovement_ge_inv (mode : String) (o d : ℚ)
    (h : 1 / 20 ≤ devImprovement mode o d) :
    0 < o ∧ (((mode = "avgt" ∨ mode = "sample") ∧ 1 / 20 ≤ (o - d) / o) ∨
      (mode = "thrpt" ∧ 1 / 20 ≤ (d - o) / o)) := by
  unfold devImprovement at h
  by_cases ho : o > 0
  · rw [if_pos ho] at h
    by_cases h1 : (mode == "avgt" || mode == "sample") = true
    · rw [if_pos h1] at h
      exact ⟨ho, Or.inl ⟨by simpa using h1, h⟩⟩
    · rw [if_neg (by simpa using h1)] at h
      by_cases h2 : (mode == "thrpt") = true
      · rw [if_pos h2] at h
        exact ⟨ho, Or.inr ⟨by simpa using h2, h⟩⟩
      · rw [if_neg (by simpa using h2)] at h
        exact absurd h (by norm_num)
  · rw [if_neg ho] at h
    exact absurd h (by norm_num)

/-- C9: every row written by `print_results` belongs to a (hash, benchmark,
params) group with at least one original entry, at least one developer entry,
and a per-mode developer improvement of at least 0.05 over the original mean;
every other group is silently omitted. -/
theorem print_results_row_filter (results : List (BenchKey × List BenchEntry)) :
    (∀ row ∈ print_results results, ∃ key e0 rest,
      (key, e0 :: rest) ∈ results ∧
      row ∈ groupRows key (e0 :: rest) ∧
      (∃ e ∈ e0 :: rest, e.model = "original") ∧
      (∃ e ∈ e0 :: rest, e.model = "developer") ∧
      0 < meanScore ((e0 :: rest).filter (fun e => e.model == "original")) ∧
      (((e0.mode = "avgt" ∨ e0.mode = "sample") ∧
          1 / 20 ≤ (meanScore ((e0 :: rest).filter (fun e => e.model == "original"))
              - meanScore ((e0 :: rest).filter (fun e => e.model == "developer")))
            / meanScore ((e0 :: rest).filter (fun e => e.model == "original"))) ∨
        (e0.mode = "thrpt" ∧
          1 / 20 ≤ (meanScore ((e0 :: rest).filter (fun e => e.model == "developer"))
              - meanScore ((e0 :: rest).filter (fun e => e.model == "original")))
            / meanScore ((e0 :: rest).filter (fun e => e.model == "original"))))) ∧
    (∀ key entries, (key, entries) ∈ results →
      (entries.filter (fun e => e.model == "original") = [] ∨
        entries.filter (fun e => e.model == "developer") = [] ∨
        (∀ e0 rest, entries = e0 :: rest →
          devImprovement e0.mode
              (meanScore (entries.filter (fun e => e.model == "original")))
              (meanScore (entries.filter (fun e => e.model == "developer"))) < 1 / 20)) →
      groupRows key entries = []) := by
  constructor
  · intro row hrow
    rw [mem_print_results] at hrow
    obtain ⟨⟨key, entries⟩, hkv, hg⟩ := hrow
    cases entries with
    | nil => simp [groupRows] at hg
    | cons e0 rest =>
      have hg0 := hg
      simp only [groupRows] at hg
      by_cases hcond : (((e0 :: rest).filter (fun e => e.model == "original")).isEmpty
          || ((e0 :: rest).filter (fun e => e.model == "developer")).isEmpty) = true
      · rw [if_pos hcond] at hg
        simp at hg
      · rw [if_neg hcond] at hg
        have ho : (e0 :: rest).filter (fun e => e.model == "original") ≠ [] := by
          intro hnil
          apply hcond
          rw [hnil]
          rfl
        have hd : (e0 :: rest).filter (fun e => e.model == "developer") ≠ [] := by
          intro hnil
          apply hcond
          rw [hnil]
          simp
        by_cases himp : devImprovement e0.mode
            (meanScore ((e0 :: rest).filter (fun e => e.model == "original")))
            (meanScore ((e0 :: rest).filter (fun e => e.model == "developer"))) < 1 / 20
        · rw [if_pos himp] at hg
          simp at hg
        · have hge := devImprovement_ge_inv _ _ _ (not_lt.mp himp)
          have hoe : ∃ e ∈ e0 :: rest, e.model = "original" := by
            obtain ⟨e, he⟩ := List.exists_mem_of_ne_nil _ ho
            rw [List.mem_filter] at he
            exact ⟨e, he.1, by simpa using he.2⟩
          have hde : ∃ e ∈ e0 :: rest, e.model = "developer" := by
            obtain ⟨e, he⟩ := List.exists_mem_of_ne_nil _ hd
            rw [List.mem_filter] at he
            exact ⟨e, he.1, by simpa using he.2⟩
          exact ⟨key, e0, rest, hkv, hg0, hoe, hde, hge.1, hge.2⟩
  · intro key entries hkv hcond
    cases entries with
    | nil => rfl
    | cons e0 rest =>
      simp only [groupRows]
      rcases hcond with hco | hcd | himp
      · have h1 : ((e0 :: rest).filter (fun e => e.model == "original")).isEmpty = true := by
          rw [hco]; rfl
        rw [if_pos (by rw [h1]; rfl)]
      · have h1 : ((e0 :: rest).filter (fun e => e.model == "developer")).isEmpty = true := by
          rw [hcd]; rfl
        rw [if_pos (by rw [h1]; simp)]
      · by_cases hcond2 : (((e0 :: rest).filter (fun e => e.model == "original")).isEmpty
            || ((e0 :: rest).filter (fun e => e.model == "developer")).isEmpty) = true
        · rw [if_pos hcond2]
        · rw [if_neg hcond2, if_pos (himp e0 rest rfl)]

/-- Witness for C9: a group with one original entry (mean 2) and one
developer entry (mean 1) in mode avgt has improvement 1/2 ≥ 0.05 and is
written out. -/
theorem print_results_row_filter_witness :
    ∃ key e0 rest,
      (key, e0 :: rest) ∈ [((⟨"h1", "bench", ""⟩ : BenchKey),
          [(⟨"original", "", "", 2, none, "ops", "avgt"⟩ : BenchEntry),
           (⟨"developer", "", "1", 1, none, "ops", "avgt"⟩ : BenchEntry)])] ∧
      (∃ e ∈ e0 :: rest, e.model = "original") ∧
      (∃ e ∈ e0 :: rest, e.model = "developer") ∧
      0 < meanScore ((e0 :: rest).filter (fun e => e.model == "original")) := by
  have hmem : (⟨"h1", "bench", "", "avgt", "ops", "original", "", "", 2, none,
      some 1⟩ : SummaryRow)
      ∈ print_results [((⟨"h1", "bench", ""⟩ : BenchKey),
        [(⟨"original", "", "", 2, none, "ops", "avgt"⟩ : BenchEntry),
         (⟨"developer", "", "1", 1, none, "ops", "avgt"⟩ : BenchEntry)])] := by
    norm_num [print_results, groupRows, devImprovement, meanScore, normalizedPerf,
      List.filter,
      show ("original" == "developer") = false from rfl,
      show ("developer" == "original") = false from rfl,
      show ("original" == "original") = true from rfl,
      show ("developer" == "developer") = true from rfl,
      show (("" : String) == "") = true from rfl,
      show ("avgt" == "avgt") = true from rfl,
      show ("avgt" == "sample") = false from rfl,
      show ("avgt" == "thrpt") = false from rfl]
  obtain ⟨key, e0, rest, h1, _, h3, h4, h5, _⟩ :=
    (print_results_row_filter _).1 _ hmem
  exact ⟨key, e0, rest, h1, h3, h4, h5⟩

theorem firstMaxRow_cons (r : ScoreRow) (rest : List ScoreRow) :
    firstMaxRow (r :: rest)
      = match firstMaxRow rest with
        | none => some r
        | some m =>
          if m.normalized_performance > r.normalized_performance then some m else some r := rfl

theorem firstMaxRow_spec : ∀ (l : List ScoreRow), l ≠ [] →
    ∃ m, firstMaxRow l = some m ∧ m ∈ l ∧
      ∀ r ∈ l, r.normalized_performance ≤ m.normalized_performance := by
  intro l
  induction l with
  | nil => intro hl; exact absurd rfl hl
  | cons r rest ih =>
    intro _
    cases rest with
    | nil =>
      refine ⟨r, rfl, List.mem_singleton.mpr rfl, ?_⟩
      intro x hx
      rw [List.mem_singleton.mp hx]
    | cons r2 rest2 =>
      obtain ⟨m, hm, hmem, hmax⟩ := ih (by simp)
      rw [firstMaxRow_cons]
      simp only [hm]
      by_cases hgt : m.normalized_performance > r.normalized_performance
      · rw [if_pos hgt]
        refine ⟨m, rfl, List.mem_cons_of_mem _ hmem, ?_⟩
        intro x hx
        rcases List.mem_cons.mp hx with rfl | hx2
        · exact le_of_lt hgt
        · exact hmax x hx2
      · rw [if_neg hgt]
        refine ⟨r, rfl, List.mem_cons_self _ _, ?_⟩
        intro x hx
        rcases List.mem_cons.mp hx with rfl | hx2
        · exact le_refl _
        · exact le_trans (hmax x hx2) (not_lt.mp hgt)

/-- C6: for a task with a developer row, the representative benchmark chosen
by `calculate_representative_benchmark_scores` is a developer row of that task
with maximal `normalized_performance` over all the task's developer rows, and
the final scores are exactly the `normalized_performance` values of the kept
rows, which for that task are precisely those matching the representative
benchmark name and params. -/
theorem representative_benchmark_spec (data : List ScoreRow) (h : String)
    (r0 : ScoreRow) (hr0 : r0 ∈ data) (hr0m : r0.model = "developer")
    (hr0h : r0.hash_value = h) :
    ∃ rep, repRow data h = some rep ∧
      rep.model = "developer" ∧ rep.hash_value = h ∧ rep ∈ filteredData data ∧
      (∀ r ∈ data, r.model = "developer" → r.hash_value = h →
        r.normalized_performance ≤ rep.normalized_performance) ∧
      (∀ r ∈ filteredData data, r.hash_value = h →
        (r ∈ finalScoreRows data ↔
          r.benchmark_name = rep.benchmark_name ∧ r.params = rep.params)) ∧
      finalScores data = (finalScoreRows data).map (fun r => r.normalized_performance) := by
  have hfill : ∀ r ∈ data, r.model = "developer" → r.hash_value = h →
      fillParams r ∈ (filteredData data).filter
        (fun r => r.model == "developer" && r.hash_value == h) := by
    intro r hr hrm hrh
    have hhash : r.hash_value ∈ devHashes data :=
      List.mem_map.mpr ⟨r, List.mem_filter.mpr ⟨hr, by simp [hrm]⟩, rfl⟩
    have hfd : fillParams r ∈ filteredData data := by
      apply List.mem_map.mpr
      refine ⟨r, List.mem_filter.mpr ⟨hr, ?_⟩, rfl⟩
      simpa using hhash
    apply List.mem_filter.mpr
    refine ⟨hfd, ?_⟩
    simp [fillParams, hrm, hrh]
  have hne : (filteredData data).filter
      (fun r => r.model == "developer" && r.hash_value == h) ≠ [] := by
    intro hnil
    have := hfill r0 hr0 hr0m hr0h
    rw [hnil] at this
    exact absurd this (List.not_mem_nil _)
  obtain ⟨rep, hrep, hrepmem, hrepmax⟩ := firstMaxRow_spec _ hne
  have hrepRow : repRow data h = some rep := hrep
  have hrepcond := List.mem_filter.mp hrepmem
  have hrepm : rep.model = "developer" := by
    have := hrepcond.2
    simp only [Bool.and_eq_true, beq_iff_eq] at this
    exact this.1
  have hreph : rep.hash_value = h := by
    have := hrepcond.2
    simp only [Bool.and_eq_true, beq_iff_eq] at this
    exact this.2
  refine ⟨rep, hrep, hrepm, hreph, hrepcond.1, ?_, ?_, rfl⟩
  · intro r hr hrm hrh
    have : (fillParams r).normalized_performance ≤ rep.normalized_performance :=
      hrepmax _ (hfill r hr hrm hrh)
    simpa [fillParams] using this
  · intro r hrfd hrh
    unfold finalScoreRows
    rw [List.mem_filter]
    constructor
    · rintro ⟨_, hpred⟩
      rw [hrh] at hpred
      rw [hrepRow] at hpred
      simp only [Bool.and_eq_true, beq_iff_eq] at hpred
      exact hpred
    · rintro ⟨hb, hp⟩
      refine ⟨hrfd, ?_⟩
      rw [hrh, hrepRow]
      simp only [Bool.and_eq_true, beq_iff_eq]
      exact ⟨hb, hp⟩

/-- Witness for C6: a task with two developer rows (scores 2 and 3). -/
theorem representative_benchmark_spec_witness :
    ∃ rep, repRow [(⟨"p", "h", "developer", "", "", "b1", none, 2⟩ : ScoreRow),
        ⟨"p", "h", "developer", "", "", "b2", some "x", 3⟩] "h" = some rep ∧
      rep.model = "developer" ∧ rep.hash_value = "h" ∧
      rep ∈ filteredData [(⟨"p", "h", "developer", "", "", "b1", none, 2⟩ : ScoreRow),
        ⟨"p", "h", "developer", "", "", "b2", some "x", 3⟩] ∧
      (∀ r ∈ [(⟨"p", "h", "developer", "", "", "b1", none, 2⟩ : ScoreRow),
          ⟨"p", "h", "developer", "", "", "b2", some "x", 3⟩],
        r.model = "developer" → r.hash_value = "h" →
        r.normalized_performance ≤ rep.normalized_performance) ∧
      (∀ r ∈ filteredData [(⟨"p", "h", "developer", "", "", "b1", none, 2⟩ : ScoreRow),
          ⟨"p", "h", "developer", "", "", "b2", some "x", 3⟩],
        r.hash_value = "h" →
        (r ∈ finalScoreRows [(⟨"p", "h", "developer", "", "", "b1", none, 2⟩ : ScoreRow),
            ⟨"p", "h", "developer", "", "", "b2", some "x", 3⟩] ↔
          r.benchmark_name = rep.benchmark_name ∧ r.params = rep.params)) ∧
      finalScores [(⟨"p", "h", "developer", "", "", "b1", none, 2⟩ : ScoreRow),
          ⟨"p", "h", "developer", "", "", "b2", some "x", 3⟩]
        = (finalScoreRows [(⟨"p", "h", "developer", "", "", "b1", none, 2⟩ : ScoreRow),
            ⟨"p", "h", "developer", "", "", "b2", some "x", 3⟩]).map
            (fun r => r.normalized_performance) :=
  representative_benchmark_spec _ "h" ⟨"p", "h", "developer", "", "", "b1", none, 2⟩
    (by simp) rfl rfl

/-- Counterexample for C1 as stated: for the file `a.txt` containing `x` and a
block whose search and replace texts are both `x`, the (normalized) search
text occurs in the file, yet `apply_diff` returns a `[Format Error]` string
rather than a non-empty unified diff: the replacement changes nothing, so
`git diff -w` is empty and the code returns
`"[Format Error] No code changes detected."`. -/
theorem apply_diff_claim_counterexample :
    pyIn (normalize_code "x") (normalize_code "x") = true ∧
    lookupFile [("a.txt", "x")] "a.txt" = some "x" ∧
    applyDiff [("a.txt", "x")] [⟨"a.txt", "x", "x"⟩]
      = "[Format Error] No code changes detected." ∧
    pyIn "[Format Error]" (applyDiff [("a.txt", "x")] [⟨"a.txt", "x", "x"⟩]) = true :=
  ⟨rfl, rfl, rfl, rfl⟩

theorem pyIn_fmtError_notfound (fp s : String) :
    pyIn "[Format Error]" ("[Format Error] Following search block not found in "
      ++ fp ++ "\n : " ++ s) = true := by
  rw [show "[Format Error] Following search block not found in " ++ fp ++ "\n : " ++ s
      = "[Format Error] Following search block not found in " ++ (fp ++ ("\n : " ++ s)) from by
    rw [strAppend_assoc, strAppend_assoc]]
  show containsSub ("[Format Error]").data
    (("[Format Error] Following search block not found in ").data
      ++ (fp ++ ("\n : " ++ s)).data) = true
  apply containsSub_of_isPrefixB
  rw [isPrefixB_append _ _ _ (by decide)]
  decide

/-- C1 (amended): for a block whose target file exists, when the normalized
search text occurs in the normalized file content, the file is rewritten with
every literal occurrence of the search text replaced by the replace text and
`apply_diff` returns the `git diff -w` output when it is non-blank and
`"[Format Error] No code changes detected."` when it is blank (for instance
when the replacement changes nothing, or only whitespace); when the
normalized search text does not occur, `apply_diff` returns the
`[Format Error]` string naming the missing search block. -/
theorem apply_diff_spec (fs : List (String × String)) (b : DiffBlock) (content : String)
    (hfile : lookupFile fs b.filepath = some content) :
    (pyIn (normalize_code b.search) (normalize_code content) = true →
      applyBlocks fs [b]
          = .ok (writeFile fs b.filepath (pyReplace content b.search b.replace)) ∧
      applyDiff fs [b]
          = (if pyStrip (gitDiffW fs
                (writeFile fs b.filepath (pyReplace content b.search b.replace))) == ""
             then "[Format Error] No code changes detected."
             else gitDiffW fs
                (writeFile fs b.filepath (pyReplace content b.search b.replace)))) ∧
    (pyIn (normalize_code b.search) (normalize_code content) = false →
      applyDiff fs [b] = "[Format Error] Following search block not found in "
          ++ b.filepath ++ "\n : " ++ b.search ∧
      pyIn "[Format Error]" (applyDiff fs [b]) = true) := by
  constructor
  · intro hin
    have hab : applyBlocks fs [b]
        = .ok (writeFile fs b.filepath (pyReplace content b.search b.replace)) := by
      simp only [applyBlocks, applyBlock, hfile, hin, eq_self_iff_true, if_true]
    exact ⟨hab, by simp only [applyDiff, hab]⟩
  · intro hnotin
    have hab : applyBlocks fs [b]
        = .error ("[Format Error] Following search block not found in "
            ++ b.filepath ++ "\n : " ++ b.search) := by
      simp only [applyBlocks, applyBlock, hfile, hnotin, Bool.false_eq_true, if_false]
    have hd : applyDiff fs [b] = "[Format Error] Following search block not found in "
        ++ b.filepath ++ "\n : " ++ b.search := by
      simp only [applyDiff, hab]
    exact ⟨hd, by rw [hd]; exact pyIn_fmtError_notfound _ _⟩

/-- Witness for C1: a found search block yields the non-empty diff of the
changed file; a missing search block yields the format-error string. -/
theorem apply_diff_spec_witness :
    applyDiff [("a.txt", "int x = 1;")] [⟨"a.txt", "int x = 1;", "int y = 2;"⟩]
        = "diff --git a/a.txt b/a.txt" ∧
    applyDiff [("a.txt", "int x = 1;")] [⟨"a.txt", "zzz", "y"⟩]
        = "[Format Error] Following search block not found in " ++ "a.txt"
            ++ "\n : " ++ "zzz" := by
  constructor
  · have h := (apply_diff_spec [("a.txt", "int x = 1;")]
      ⟨"a.txt", "int x = 1;", "int y = 2;"⟩ "int x = 1;" rfl).1 rfl
    rw [h.2]
    rfl
  · exact ((apply_diff_spec [("a.txt", "int x = 1;")] ⟨"a.txt", "zzz", "y"⟩
      "int x = 1;" rfl).2 rfl).1

/-- Counterexample for C4 as stated: a fenced json block whose content parses
as the JSON number 5 makes `extract_diff_json` raise an uncaught `TypeError`
(iterating over an `int`), instead of returning a `[Format Error]` string. -/
theorem extract_diff_json_claim_counterexample :
    extract_diff_json "```json\n5\n```" = .raised := rfl

theorem validateBlocks_blocks_iff : ∀ (elems : List JVal),
    validateBlocks elems = .blocks elems ↔ ∀ e ∈ elems, checkKeys e = some true := by
  intro elems
  induction elems with
  | nil => simp [validateBlocks]
  | cons b rest ih =>
    constructor
    · intro h
      cases h1 : checkKeys b with
      | none => simp [validateBlocks, h1] at h
      | some b1 =>
        cases b1 with
        | false => simp [validateBlocks, h1] at h
        | true =>
          simp only [validateBlocks, h1] at h
          cases hrec : validateBlocks rest with
          | blocks bs =>
            rw [hrec] at h
            simp only [ExtractResult.blocks.injEq, List.cons.injEq] at h
            have hrest : validateBlocks rest = .blocks rest := by
              rw [hrec, h.2]
            intro e he
            rcases List.mem_cons.mp he with rfl | he2
            · exact h1
            · exact (ih.mp hrest) e he2
          | fmtError m => rw [hrec] at h; simp at h
          | raised => rw [hrec] at h; simp at h
    · intro hall
      have hrest : validateBlocks rest = .blocks rest :=
        ih.mpr (fun e he => hall e (List.mem_cons_of_mem _ he))
      simp only [validateBlocks, hall b (List.mem_cons_self _ _), hrest]

theorem validateBlocks_firstBad (b : JVal) (post : List JVal) :
    ∀ (pre : List JVal), (∀ e ∈ pre, checkKeys e = some true) →
      (checkKeys b = none → validateBlocks (pre ++ b :: post) = .raised) ∧
      (checkKeys b = some false → validateBlocks (pre ++ b :: post)
        = .fmtError ("[Format Error] Following block is invalid: \n " ++ renderJson b)) := by
  intro pre
  induction pre with
  | nil =>
    intro _
    constructor
    · intro hb
      simp only [List.nil_append, validateBlocks, hb]
    · intro hb
      simp only [List.nil_append, validateBlocks, hb]
  | cons p pre2 ih =>
    intro hpre
    have hp := hpre p (List.mem_cons_self _ _)
    have ih2 := ih (fun e he => hpre e (List.mem_cons_of_mem _ he))
    constructor
    · intro hb
      have hrec := ih2.1 hb
      simp only [List.cons_append, validateBlocks, hp, List.append_eq, hrec]
    · intro hb
      have hrec := ih2.2 hb
      simp only [List.cons_append, validateBlocks, hp, List.append_eq, hrec]

/-- C4 (amended): `extract_diff_json` scans only the first fenced json block:
with no such block, or content that is not valid JSON, it returns a
`[Format Error]` string; when the content parses as a JSON array, the
elements are checked left to right with Python's `in` operator: the element
list is returned exactly when every element contains the three keys
`filepath`, `search` and `replace`; at the first element failing a check, a
container element with a missing key produces a `[Format Error]` string
naming that block, while a non-container element makes the `in` test raise
an uncaught `TypeError`; and when the parsed value is itself not iterable
(a number, boolean, or null) the iteration raises an uncaught `TypeError`
instead of returning an error string. -/
theorem extract_diff_json_spec (log : String) :
    (fenceContent log.data = none →
      extract_diff_json log = .fmtError "[Format Error] No valid JSON array found.") ∧
    (∀ c, fenceContent log.data = some c → jsonParse (String.mk c) = none →
      extract_diff_json log = .fmtError "[Format Error] Invalid JSON format.") ∧
    (∀ c elems, fenceContent log.data = some c →
      jsonParse (String.mk c) = some (.arr elems) →
      (extract_diff_json log = .blocks elems ↔ ∀ e ∈ elems, checkKeys e = some true)) ∧
    (∀ c pre b post, fenceContent log.data = some c →
      jsonParse (String.mk c) = some (.arr (pre ++ b :: post)) →
      (∀ e ∈ pre, checkKeys e = some true) →
      (checkKeys b = none → extract_diff_json log = .raised) ∧
      (checkKeys b = some false →
        extract_diff_json log
          = .fmtError ("[Format Error] Following block is invalid: \n " ++ renderJson b))) ∧
    (∀ c v, fenceContent log.data = some c → jsonParse (String.mk c) = some v →
      pyIterate v = none → extract_diff_json log = .raised) := by
  refine ⟨?_, ?_, ?_, ?_, ?_⟩
  · intro hf
    simp only [extract_diff_json, hf]
  · intro c hf hp
    simp only [extract_diff_json, hf, hp]
  · intro c elems hf hp
    simp only [extract_diff_json, hf, hp, pyIterate]
    exact validateBlocks_blocks_iff elems
  · intro c pre b post hf hp hpre
    simp only [extract_diff_json, hf, hp, pyIterate]
    exact validateBlocks_firstBad b post pre hpre
  · intro c v hf hp hit
    simp only [extract_diff_json, hf, hp, hit]

/-- Witness for C4: a complete block is returned as parsed; a block missing
its `search` and `replace` keys yields the format-error string naming it;
the array `[5]` makes the membership test raise an uncaught `TypeError`. -/
theorem extract_diff_json_spec_witness :
    extract_diff_json
        "x ```json [\x7b\"filepath\": \"a\", \"search\": \"s\", \"replace\": \"r\"\x7d] ```"
      = .blocks [JVal.obj [("filepath", JVal.str "a"), ("search", JVal.str "s"),
          ("replace", JVal.str "r")]] ∧
    extract_diff_json "```json [\x7b\"filepath\": \"a\"\x7d] ```"
      = .fmtError ("[Format Error] Following block is invalid: \n "
          ++ renderJson (JVal.obj [("filepath", JVal.str "a")])) ∧
    extract_diff_json "```json [5] ```" = .raised := by
  refine ⟨?_, ?_, ?_⟩
  · have hf : fenceContent
        ("x ```json [\x7b\"filepath\": \"a\", \"search\": \"s\", \"replace\": \"r\"\x7d] ```").data
        = some ("[\x7b\"filepath\": \"a\", \"search\": \"s\", \"replace\": \"r\"\x7d]").data := by
      rfl
    have hp : jsonParse
        (String.mk ("[\x7b\"filepath\": \"a\", \"search\": \"s\", \"replace\": \"r\"\x7d]").data)
        = some (JVal.arr [JVal.obj [("filepath", JVal.str "a"), ("search", JVal.str "s"),
            ("replace", JVal.str "r")]]) := by rfl
    apply ((extract_diff_json_spec _).2.2.1 _ _ hf hp).mpr
    intro e he
    rw [List.mem_singleton.mp he]
    rfl
  · have hf : fenceContent ("```json [\x7b\"filepath\": \"a\"\x7d] ```").data
        = some ("[\x7b\"filepath\": \"a\"\x7d]").data := by rfl
    have hp : jsonParse (String.mk ("[\x7b\"filepath\": \"a\"\x7d]").data)
        = some (JVal.arr ([] ++ JVal.obj [("filepath", JVal.str "a")] :: [])) := by rfl
    exact ((extract_diff_json_spec _).2.2.2.1 _ [] _ [] hf hp
      (fun e he => absurd he (List.not_mem_nil e))).2 rfl
  · have hf : fenceContent ("```json [5] ```").data = some ("[5]").data := by rfl
    have hp : jsonParse (String.mk ("[5]").data)
        = some (JVal.arr ([] ++ JVal.num 5 0 :: [])) := by rfl
    exact ((extract_diff_json_spec _).2.2.2.1 _ [] _ [] hf hp
      (fun e he => absurd he (List.not_mem_nil e))).1 rfl

end EvalLLM
